import Mathlib

/-!
Shallow embedding of the EA Forum cluster-summary pipeline.

The embedding covers two programs:

* `summarize_cluster_scores.py` (the Aggregator): connects to a relational
  store, probes which `ea_cluster_{L}` columns exist, and writes two CSV
  artifacts — a per-level overview (`export_level_overview_csv`) and a
  per-cluster detail table (`export_cluster_details_csv`) — in addition to
  console summaries (`summarize_level`).
* `cluster_dashboard_app.py` (the Viewer): loads the two CSV artifacts and
  optionally issues a live query (`fetch_cluster_posts`) for the posts of a
  single cluster.

The relational store is modelled as a list of rows (`Post`) together with a
`Schema` recording which optional columns exist.  SQL aggregates are modelled
exactly: `COUNT(*)` as list length, `SUM(CASE WHEN …)` as a count that is
`none` on an empty input (SQL `SUM` over zero rows is NULL), `AVG` as the
exact rational mean of the non-null values, and `STDDEV` as an opaque
parameter `sd` (its numeric value is irrelevant to every property proved
here, and Postgres computes it in approximate arithmetic).
`GROUP BY c, name` is modelled by the list of distinct key pairs, and
`ORDER BY` by `List.insertionSort` with the corresponding total preorder.
-/

namespace EAFC

/-- A row of the `fellowship_mvp` table.  Cluster-id and cluster-name columns
exist per level; a row's value in a column that the schema does not have is
never consulted.  `posted_at` is an epoch timestamp in seconds. -/
structure Post where
  post_id : Nat
  title : String
  author_display_name : String
  posted_at : Option Int
  base_score : Option Rat
  score : Option Rat
  ea_classification : Option String
  cluster : Int → Option Int
  cluster_name : Int → Option String

/-- Which optional columns of `fellowship_mvp` exist: the levels `L` for which
`ea_cluster_{L}` exists, and the levels for which `ea_cluster_{L}_name`
exists. -/
structure Schema where
  clusterLevels : List Int
  nameLevels : List Int

/-- The queryable data source: a schema plus the table rows. -/
structure Db where
  schema : Schema
  posts : List Post

/-- `column_exists(conn, "fellowship_mvp", f"ea_cluster_{level}")`. -/
def column_exists (db : Db) (level : Int) : Bool :=
  db.schema.clusterLevels.contains level

/-- `column_exists(conn, "fellowship_mvp", f"ea_cluster_{level}_name")`. -/
def name_column_exists (db : Db) (level : Int) : Bool :=
  db.schema.nameLevels.contains level

/-- SQL `AVG` over a column: NULL on an empty population, else the exact mean
of the non-null values (the caller passes the non-null values). -/
def sqlAvg (xs : List Rat) : Option Rat :=
  if xs.isEmpty then none else some (xs.sum / (xs.length : Rat))

/-- `SUM(CASE WHEN pred THEN 1 ELSE 0 END)::int` over a row population:
NULL when the population is empty (SQL `SUM` of no rows), else the number of
rows satisfying `pred`. -/
def sqlSumCase (ps : List Post) (pred : Post → Bool) : Option Nat :=
  if ps.isEmpty then none else some (ps.countP pred)

/-- Whether a post's `ea_classification` equals a given label. -/
def classMatches (c : String) (p : Post) : Bool :=
  p.ea_classification = some c

/-- The non-null `base_score` values of a population. -/
def baseScores (ps : List Post) : List Rat := ps.filterMap Post.base_score

/-- The non-null `score` values of a population. -/
def scores (ps : List Post) : List Rat := ps.filterMap Post.score

/-- The posts with a non-null cluster id at a level: the population selected
by `WHERE ea_cluster_{L} IS NOT NULL`. -/
def levelPosts (db : Db) (level : Int) : List Post :=
  db.posts.filter (fun p => (p.cluster level).isSome)

/-- One row of `cluster_level_summary.csv`.  `meta_posts` and `proper_posts`
are `Option` because SQL `SUM` over an empty population is NULL, which the
CSV writer serializes as an empty cell. -/
structure LevelRow where
  level : Int
  post_count : Nat
  meta_posts : Option Nat
  proper_posts : Option Nat
  avg_base_score : Option Rat
  stddev_base_score : Option Rat
  avg_score : Option Rat
  stddev_score : Option Rat
deriving DecidableEq, Repr

/-- The single aggregate row computed for one level by the query inside
`export_level_overview_csv`. -/
def levelOverviewRow (sd : List Rat → Option Rat) (db : Db) (level : Int) :
    LevelRow :=
  let ps := levelPosts db level
  { level := level
  , post_count := ps.length
  , meta_posts := sqlSumCase ps (classMatches "EA_META")
  , proper_posts := sqlSumCase ps (classMatches "EA_PROPER")
  , avg_base_score := sqlAvg (baseScores ps)
  , stddev_base_score := sd (baseScores ps)
  , avg_score := sqlAvg (scores ps)
  , stddev_score := sd (scores ps) }

/-- `export_level_overview_csv`: one row per requested level whose
`ea_cluster_{L}` column exists (levels with a missing column are skipped by
the `continue`). -/
def export_level_overview_csv (sd : List Rat → Option Rat) (db : Db)
    (levels : List Int) : List LevelRow :=
  (levels.filter (fun level => column_exists db level)).map
    (levelOverviewRow sd db)

/-- The `cluster_name` select expression:
`COALESCE(ea_cluster_{L}_name, 'Cluster ' || id)` when the name column
exists, else `'Cluster ' || id`. -/
def clusterNameOf (db : Db) (level : Int) (p : Post) (cid : Int) : String :=
  if name_column_exists db level then
    match p.cluster_name level with
    | some n => n
    | none => "Cluster " ++ toString cid
  else "Cluster " ++ toString cid

/-- The `GROUP BY ea_cluster_{L}, cluster_name` key of a post, or `none` when
the post has a NULL cluster id at the level (excluded by the WHERE clause). -/
def clusterKey (db : Db) (level : Int) (p : Post) : Option (Int × String) :=
  match p.cluster level with
  | none => none
  | some cid => some (cid, clusterNameOf db level p cid)

/-- The distinct grouping keys of a post population at a level. -/
def clusterKeys (db : Db) (level : Int) (ps : List Post) : List (Int × String) :=
  (ps.filterMap (clusterKey db level)).dedup

/-- The rows of one `GROUP BY` group. -/
def clusterGroup (db : Db) (level : Int) (ps : List Post) (k : Int × String) :
    List Post :=
  ps.filter (fun p => clusterKey db level p = some k)

/-- One row of `cluster_cluster_summary.csv`.  Groups are nonempty, so the
`SUM(CASE …)` counts are never NULL here. -/
structure ClusterRow where
  level : Int
  cluster_id : Int
  cluster_name : String
  post_count : Nat
  meta_posts : Nat
  proper_posts : Nat
  avg_base_score : Option Rat
  stddev_base_score : Option Rat
  avg_score : Option Rat
  stddev_score : Option Rat
deriving DecidableEq, Repr

/-- The aggregate row of one cluster group. -/
def mkClusterRow (sd : List Rat → Option Rat) (db : Db) (level : Int)
    (ps : List Post) (k : Int × String) : ClusterRow :=
  let grp := clusterGroup db level ps k
  { level := level
  , cluster_id := k.1
  , cluster_name := k.2
  , post_count := grp.length
  , meta_posts := grp.countP (classMatches "EA_META")
  , proper_posts := grp.countP (classMatches "EA_PROPER")
  , avg_base_score := sqlAvg (baseScores grp)
  , stddev_base_score := sd (baseScores grp)
  , avg_score := sqlAvg (scores grp)
  , stddev_score := sd (scores grp) }

/-- `ORDER BY post_count DESC, cluster_id ASC` as a total preorder on
cluster rows. -/
def clusterOrd (a b : ClusterRow) : Prop :=
  b.post_count < a.post_count ∨
    (a.post_count = b.post_count ∧ a.cluster_id ≤ b.cluster_id)

instance : DecidableRel clusterOrd := fun a b => by
  unfold clusterOrd; infer_instance

instance : IsTotal ClusterRow clusterOrd := by
  constructor
  intro a b
  unfold clusterOrd
  rcases Nat.lt_trichotomy a.post_count b.post_count with h | h | h
  · exact Or.inr (Or.inl h)
  · rcases Int.le_total a.cluster_id b.cluster_id with h2 | h2
    · exact Or.inl (Or.inr ⟨h, h2⟩)
    · exact Or.inr (Or.inr ⟨h.symm, h2⟩)
  · exact Or.inl (Or.inl h)

instance : IsTrans ClusterRow clusterOrd := by
  constructor
  intro a b c hab hbc
  unfold clusterOrd at *
  rcases hab with hab | ⟨hab1, hab2⟩
  · rcases hbc with hbc | ⟨hbc1, hbc2⟩
    · exact Or.inl (Nat.lt_trans hbc hab)
    · exact Or.inl (hbc1 ▸ hab)
  · rcases hbc with hbc | ⟨hbc1, hbc2⟩
    · exact Or.inl (hab1 ▸ hbc)
    · exact Or.inr ⟨hab1.trans hbc1, hab2.trans hbc2⟩

/-- The block of cluster-summary rows one level contributes to
`cluster_cluster_summary.csv`: empty when `ea_cluster_{L}` is missing
(the `continue`), else the grouped aggregation sorted by
`post_count DESC, cluster_id ASC`. -/
def clusterDetailsRows (sd : List Rat → Option Rat) (db : Db) (level : Int) :
    List ClusterRow :=
  if column_exists db level then
    List.insertionSort clusterOrd
      ((clusterKeys db level db.posts).map (mkClusterRow sd db level db.posts))
  else []

/-- `export_cluster_details_csv`: the concatenation of the per-level blocks,
in the order the levels are iterated. -/
def export_cluster_details_csv (sd : List Rat → Option Rat) (db : Db)
    (levels : List Int) : List ClusterRow :=
  levels.flatMap (clusterDetailsRows sd db)

/-- One printed line of a `summarize_level` section (the query also selects
`cluster_id`, used for the tie-break ordering). -/
structure SummaryEntry where
  cluster_id : Int
  cluster_name : String
  post_count : Nat
  avg_base_score : Option Rat
  stddev_base_score : Option Rat
deriving DecidableEq, Repr

/-- `ORDER BY post_count DESC, cluster_id ASC` on summary entries. -/
def entryOrd (a b : SummaryEntry) : Prop :=
  b.post_count < a.post_count ∨
    (a.post_count = b.post_count ∧ a.cluster_id ≤ b.cluster_id)

instance : DecidableRel entryOrd := fun a b => by
  unfold entryOrd; infer_instance

/-- One printed line of the "EA Meta vs Proper" top-of-report block. -/
structure MetaProperRow where
  classification : String
  post_count : Nat
  avg_base_score : Option Rat
  stddev_base_score : Option Rat
  avg_score : Option Rat
  stddev_score : Option Rat
deriving DecidableEq, Repr

/-- Console output of the Aggregator, at the granularity of printed blocks:
section headers, the meta-vs-proper block, a per-level summary section (with
the classification filter that produced it), the `[skip]` line for a level
whose cluster column is missing, and the CSV-export notices. -/
inductive ConsoleItem where
  | headerLine (title : String)
  | metaProperSummary (rows : List MetaProperRow)
  | levelSection (level : Int) (filter : Option String)
      (entries : List SummaryEntry)
  | skipMsg (level : Int)
  | csvExported
deriving DecidableEq, Repr

/-- The population of `summarize_level`: posts restricted by the optional
`ea_classification = filter` clause (the non-null-cluster clause is applied
by the grouping itself). -/
def classFilteredPosts (db : Db) (filter : Option String) : List Post :=
  match filter with
  | none => db.posts
  | some c => db.posts.filter (classMatches c)

/-- The aggregate entry of one group in a `summarize_level` query. -/
def mkSummaryEntry (sd : List Rat → Option Rat) (db : Db) (level : Int)
    (ps : List Post) (k : Int × String) : SummaryEntry :=
  let grp := clusterGroup db level ps k
  { cluster_id := k.1
  , cluster_name := k.2
  , post_count := grp.length
  , avg_base_score := sqlAvg (baseScores grp)
  , stddev_base_score := sd (baseScores grp) }

/-- `summarize_level`: prints `[skip] …` and returns when `ea_cluster_{L}` is
missing, else prints one section with the grouped aggregation sorted by
`post_count DESC, cluster_id ASC`. -/
def summarize_level (sd : List Rat → Option Rat) (db : Db) (level : Int)
    (filter : Option String) : List ConsoleItem :=
  if column_exists db level then
    let ps := classFilteredPosts db filter
    [ConsoleItem.levelSection level filter
      (List.insertionSort entryOrd
        ((clusterKeys db level ps).map (mkSummaryEntry sd db level ps)))]
  else [ConsoleItem.skipMsg level]

/-- The rows of the "EA Meta vs Proper" block: one group per recognized
label that occurs in the data (`WHERE ea_classification IN … GROUP BY …
ORDER BY ea_classification`; `EA_META` sorts before `EA_PROPER`). -/
def metaProperRows (sd : List Rat → Option Rat) (db : Db) :
    List MetaProperRow :=
  (["EA_META", "EA_PROPER"].filter
      (fun c => db.posts.any (classMatches c))).map (fun c =>
    let ps := db.posts.filter (classMatches c)
    { classification := c
    , post_count := ps.length
    , avg_base_score := sqlAvg (baseScores ps)
    , stddev_base_score := sd (baseScores ps)
    , avg_score := sqlAvg (scores ps)
    , stddev_score := sd (scores ps) })

/-- `classification_values`: the distinct non-null classification labels,
ordered ascending. -/
def classification_values (db : Db) : List String :=
  List.insertionSort (fun a b => a ≤ b)
    ((db.posts.filterMap Post.ea_classification).dedup)

/-- The full console transcript of the Aggregator's `main` after a successful
connection: the meta-vs-proper block, the per-level sections (with the
configured filter), the CSV-export notices, and — when no filter was set —
the per-classification breakdown loop. -/
def mainConsole (sd : List Rat → Option Rat) (db : Db) (levels : List Int)
    (filter : Option String) : List ConsoleItem :=
  [ConsoleItem.headerLine "EA Meta vs Proper Summary (base_score and score)",
   ConsoleItem.metaProperSummary (metaProperRows sd db),
   ConsoleItem.headerLine "EA Forum Cluster Score Summary"]
  ++ levels.flatMap (fun level => summarize_level sd db level filter)
  ++ [ConsoleItem.csvExported]
  ++ (match filter with
      | some _ => []
      | none =>
        ConsoleItem.headerLine "Breakdown by EA Classification" ::
          (classification_values db).flatMap (fun c =>
            levels.flatMap (fun level =>
              summarize_level sd db level (some c))))

/-- Python `str.strip()` on a character list (ASCII whitespace). -/
def pyStrip (s : List Char) : List Char :=
  ((s.dropWhile Char.isWhitespace).reverse.dropWhile Char.isWhitespace).reverse

/-- Python `str.split(",")`. -/
def splitOnComma : List Char → List Char → List (List Char)
  | [], acc => [acc.reverse]
  | c :: rest, acc =>
    if c = ',' then acc.reverse :: splitOnComma rest []
    else splitOnComma rest (c :: acc)

/-- The digit-run grammar of a Python integer literal: digits with single
underscores allowed between digits.  `acc` is the value read so far (`none`
before the first digit). -/
def parseDigitsAux : Option Nat → List Char → Option Nat
  | acc, [] => acc
  | acc, c :: rest =>
    if c.isDigit then
      parseDigitsAux (some ((acc.getD 0) * 10 + (c.toNat - '0'.toNat))) rest
    else if c = '_' then
      match acc, rest with
      | some n, d :: rest2 =>
        if d.isDigit then
          parseDigitsAux (some (n * 10 + (d.toNat - '0'.toNat))) rest2
        else none
      | _, _ => none
    else none

/-- Python `int(s)` on a string: strip whitespace, an optional sign, then a
nonempty digit run; `none` models the raised `ValueError`. -/
def pyInt (s : List Char) : Option Int :=
  match pyStrip s with
  | '-' :: rest => (parseDigitsAux none rest).map (fun n => -(n : Int))
  | '+' :: rest => (parseDigitsAux none rest).map (fun n => (n : Int))
  | cs => (parseDigitsAux none cs).map (fun n => (n : Int))

/-- The comma-separated entries of the (already stripped) `CLUSTER_LEVELS`
value that survive the `if x.strip()` guard. -/
def keptEntries (env : List Char) : List (List Char) :=
  (splitOnComma (pyStrip env) []).filter (fun x => !(pyStrip x).isEmpty)

/-- Sequential conversion of the kept entries, stopping at the first entry
`int()` rejects (the exception aborts the whole generator). -/
def traverseInts : List (List Char) → Option (List Int)
  | [] => some []
  | e :: rest =>
    match pyInt e, traverseInts rest with
    | some v, some vs => some (v :: vs)
    | _, _ => none

/-- `DEFAULT_LEVELS = (5, 12, 30, 60)`. -/
def DEFAULT_LEVELS : List Int := [5, 12, 30, 60]

/-- The `CLUSTER_LEVELS` parsing logic at the top of the Aggregator's `main`:
an empty (after strip) value means the defaults; otherwise the non-blank
comma-separated entries are converted with `int`, and any conversion failure
falls back to the defaults. -/
def parse_levels (env : List Char) : List Int :=
  if (pyStrip env).isEmpty then DEFAULT_LEVELS
  else
    match traverseInts (keptEntries env) with
    | some vs => vs
    | none => DEFAULT_LEVELS

/-- Result of `connect_db()` in the Aggregator: either a connection to a
data source or a raised exception. -/
inductive ConnResult where
  | failure
  | ok (db : Db)

/-- Everything the Aggregator produces on a successful run: the console
transcript and the two CSV artifacts. -/
structure AggOutput where
  console : List ConsoleItem
  level_csv : List LevelRow
  cluster_csv : List ClusterRow

/-- The `EA_CLASSIFICATION_FILTER` logic: the stripped value when non-empty,
else no filter. -/
def parse_filter (env : List Char) : Option String :=
  let c := pyStrip env
  if c.isEmpty then none else some (String.mk c)

/-- The Aggregator's `main`: `connect_db()` runs before anything is written,
so a connection failure aborts the process with no artifact created or
modified (`none`); on success both artifacts are written and the console
transcript is printed. -/
def aggregator_main (sd : List Rat → Option Rat) (conn : ConnResult)
    (levelsEnv classificationEnv : List Char) : Option AggOutput :=
  match conn with
  | ConnResult.failure => none
  | ConnResult.ok db =>
    let levels := parse_levels levelsEnv
    let filter := parse_filter classificationEnv
    some { console := mainConsole sd db levels filter
         , level_csv := export_level_overview_csv sd db levels
         , cluster_csv := export_cluster_details_csv sd db levels }

/-- Outcome of `connect_db()` plus query execution in the Viewer's
`fetch_cluster_posts`: no connection at all, a connection whose query raises,
or a working connection. -/
inductive DbConn where
  | unreachable
  | queryFails (db : Db)
  | ok (db : Db)

/-- One row of the `fetch_cluster_posts` result (the columns selected by its
query). -/
structure FetchRow where
  post_id : Nat
  title : String
  author_display_name : String
  posted_at : Option Int
  base_score : Option Rat
  score : Option Rat
deriving DecidableEq, Repr

/-- Projection of a table row onto the selected columns. -/
def toFetchRow (p : Post) : FetchRow :=
  { post_id := p.post_id
  , title := p.title
  , author_display_name := p.author_display_name
  , posted_at := p.posted_at
  , base_score := p.base_score
  , score := p.score }

/-- `DESC NULLS LAST` on an optional key: a non-null value precedes a null,
and non-null values are ordered descending. -/
def optDescLe {α : Type} [LinearOrder α] : Option α → Option α → Prop
  | none, none => True
  | none, some _ => False
  | some _, none => True
  | some x, some y => y ≤ x

instance {α : Type} [LinearOrder α] : DecidableRel (optDescLe (α := α)) :=
  fun a b =>
    match a, b with
    | none, none => Decidable.isTrue trivial
    | none, some _ => Decidable.isFalse (fun h => h)
    | some _, none => Decidable.isTrue trivial
    | some x, some y => inferInstanceAs (Decidable (y ≤ x))

instance {α : Type} [LinearOrder α] :
    IsTotal (Option α) (optDescLe (α := α)) := by
  constructor
  intro a b
  rcases a with _ | x <;> rcases b with _ | y
  · exact Or.inl trivial
  · exact Or.inr trivial
  · exact Or.inl trivial
  · rcases le_total x y with h | h
    · exact Or.inr h
    · exact Or.inl h

instance {α : Type} [LinearOrder α] :
    IsTrans (Option α) (optDescLe (α := α)) := by
  constructor
  intro a b c hab hbc
  rcases a with _ | x <;> rcases b with _ | y <;> rcases c with _ | z <;>
    simp only [optDescLe] at * <;> try exact trivial
  exact le_trans hbc hab

/-- `ORDER BY score DESC NULLS LAST` on fetched rows. -/
def scoreOrd (a b : FetchRow) : Prop := optDescLe a.score b.score

instance : DecidableRel scoreOrd := fun a b =>
  inferInstanceAs (Decidable (optDescLe a.score b.score))

instance : IsTotal FetchRow scoreOrd :=
  ⟨fun a b => IsTotal.total (r := optDescLe (α := Rat)) a.score b.score⟩

instance : IsTrans FetchRow scoreOrd :=
  ⟨fun _ _ _ hab hbc =>
    IsTrans.trans (r := optDescLe (α := Rat)) _ _ _ hab hbc⟩

/-- `ORDER BY posted_at DESC NULLS LAST` on fetched rows. -/
def dateOrd (a b : FetchRow) : Prop := optDescLe a.posted_at b.posted_at

instance : DecidableRel dateOrd := fun a b =>
  inferInstanceAs (Decidable (optDescLe a.posted_at b.posted_at))

instance : IsTotal FetchRow dateOrd :=
  ⟨fun a b => IsTotal.total (r := optDescLe (α := Int)) a.posted_at b.posted_at⟩

instance : IsTrans FetchRow dateOrd :=
  ⟨fun _ _ _ hab hbc =>
    IsTrans.trans (r := optDescLe (α := Int)) _ _ _ hab hbc⟩

/-- The rows matched by `WHERE ea_cluster_{level} = cluster_id`. -/
def fetchMatching (db : Db) (level cluster_id : Int) : List Post :=
  db.posts.filter (fun p => p.cluster level = some cluster_id)

/-- The query result before `LIMIT`: the matching rows in the requested
order (`score DESC NULLS LAST` when sorting by score, else
`posted_at DESC NULLS LAST`). -/
def fetchSorted (db : Db) (level cluster_id : Int) (sort_by : String) :
    List FetchRow :=
  if sort_by = "score" then
    List.insertionSort scoreOrd ((fetchMatching db level cluster_id).map toFetchRow)
  else
    List.insertionSort dateOrd ((fetchMatching db level cluster_id).map toFetchRow)

/-- Round half to even (the rounding pandas applies to float columns). -/
def roundHalfEven (q : Rat) : Int :=
  let f := ⌊q⌋
  let r := q - (f : Rat)
  if r < 1/2 then f
  else if (1:Rat)/2 < r then f + 1
  else if f % 2 = 0 then f else f + 1

/-- pandas `.round(2)` on the `score` column, idealized over exact
rationals. -/
def round2 (q : Rat) : Rat := ((roundHalfEven (q * 100) : Int) : Rat) / 100

/-- `pd.to_datetime(...).dt.date`: truncation of an epoch-second timestamp to
its day. -/
def toDate (t : Int) : Int := Int.fdiv t 86400

/-- The dataframe post-processing of `fetch_cluster_posts`: dates truncated,
`base_score` rounded to an integer, `score` rounded to two decimals. -/
def formatFetchRow (r : FetchRow) : FetchRow :=
  { r with posted_at := r.posted_at.map toDate
         , base_score := r.base_score.map (fun q => ((roundHalfEven q : Int) : Rat))
         , score := r.score.map round2 }

/-- `fetch_cluster_posts(level, cluster_id, sort_by)`: an empty result when
no connection can be made or the query raises, else the matching rows in the
requested order, limited to 500, with the display formatting applied. -/
def fetch_cluster_posts (conn : DbConn) (level cluster_id : Int)
    (sort_by : String) : List FetchRow :=
  match conn with
  | DbConn.unreachable => []
  | DbConn.queryFails _ => []
  | DbConn.ok db =>
    ((fetchSorted db level cluster_id sort_by).take 500).map formatFetchRow

/-- What the Viewer finds on disk at startup: for each of the two CSVs,
`none` when the file is absent, else its parsed data rows. -/
structure ViewerInput where
  levelCsv : Option (List LevelRow)
  clusterCsv : Option (List ClusterRow)

/-- How the Viewer's `main` ends: blocked on `st.error` + `st.stop`, or a
rendered page (recording whether the overview block was shown, and which
level sections were rendered). -/
inductive ViewerOutcome where
  | errorStopped
  | rendered (overviewShown : Bool) (levels : List Int)
deriving DecidableEq, Repr

/-- `sorted(cluster_df["level"].unique())`. -/
def available_levels (crows : List ClusterRow) : List Int :=
  List.insertionSort (fun a b => a ≤ b) ((crows.map ClusterRow.level).dedup)

/-- The Viewer's `main` control flow: `st.error`/`st.stop` when either CSV
file is missing; otherwise the page is rendered, with the overview block
shown exactly when the level CSV has at least one data row. -/
def viewer_main (inp : ViewerInput) : ViewerOutcome :=
  match inp.levelCsv, inp.clusterCsv with
  | some lrows, some crows =>
    ViewerOutcome.rendered (!lrows.isEmpty) (available_levels crows)
  | _, _ => ViewerOutcome.errorStopped

/-- A stddev implementation returning NULL everywhere; concrete test
databases below carry no scores, for which this is exact. -/
def sdNone : List Rat → Option Rat := fun _ => none

/-- A concrete table row for the test databases: classification, cluster ids
at levels 5 and 12, a name at level 5, and a timestamp (scores NULL). -/
def mkPost (id : Nat) (cls : Option String) (c5 c12 : Option Int)
    (n5 : Option String) (t : Option Int) : Post :=
  { post_id := id
  , title := "t"
  , author_display_name := "a"
  , posted_at := t
  , base_score := none
  , score := none
  , ea_classification := cls
  , cluster := fun L => if L = 5 then c5 else if L = 12 then c12 else none
  , cluster_name := fun L => if L = 5 then n5 else none }

/-- A database whose every post is clustered at both levels 5 and 12. -/
def dbW : Db :=
  { schema := { clusterLevels := [5, 12], nameLevels := [5] }
  , posts :=
      [ mkPost 1 (some "EA_META") (some 1) (some 1) (some "Alpha") (some 100000)
      , mkPost 2 (some "EA_PROPER") (some 1) (some 1) (some "Alpha") (some 200000)
      , mkPost 3 none (some 2) (some 1) none none ] }

/-- A database with a post clustered at level 5 but not at level 12. -/
def dbC2 : Db :=
  { schema := { clusterLevels := [5, 12], nameLevels := [] }
  , posts := [ mkPost 1 none (some 1) none none none ] }

/-- A database whose schema has the level-5 cluster column but not the
level-12 one. -/
def dbC8 : Db :=
  { schema := { clusterLevels := [5], nameLevels := [] }
  , posts := [ mkPost 1 none (some 1) none none none ] }

/-- A database for exercising the Viewer's live post query. -/
def dbF : Db :=
  { schema := { clusterLevels := [5], nameLevels := [] }
  , posts :=
      [ mkPost 1 none (some 1) none none (some 100000)
      , mkPost 2 none (some 1) none none (some 200000)
      , mkPost 3 none (some 2) none none (some 300000) ] }

/-- Two mutually exclusive predicates each count at most a disjoint share of
a list. -/
theorem countP_add_countP_le_length {α : Type} (l : List α) (p q : α → Bool)
    (h : ∀ a, p a = true → q a = false) :
    l.countP p + l.countP q ≤ l.length := by
  induction l with
  | nil => simp
  | cons a l ih =>
    rw [List.countP_cons, List.countP_cons, List.length_cons]
    by_cases hp : p a = true
    · have hq := h a hp
      rw [if_pos hp, if_neg (by simp [hq])]
      omega
    · rw [if_neg hp]
      by_cases hq : q a = true
      · rw [if_pos hq]
        omega
      · rw [if_neg hq]
        omega

/-- The indicator of an element absent from a list sums to zero. -/
theorem sum_map_indicator_zero {κ : Type} [DecidableEq κ] (K : List κ)
    (k : κ) (hk : k ∉ K) :
    (K.map (fun x => if k = x then 1 else 0)).sum = 0 := by
  apply List.sum_eq_zero
  intro x hx
  rcases List.mem_map.mp hx with ⟨y, hy, hxy⟩
  have hky : ¬ k = y := fun he => hk (he ▸ hy)
  simpa [hky] using hxy.symm

/-- The indicator of an element of a duplicate-free list sums to one. -/
theorem sum_map_indicator_one {κ : Type} [DecidableEq κ] (K : List κ)
    (k : κ) (hnd : K.Nodup) (hk : k ∈ K) :
    (K.map (fun x => if k = x then 1 else 0)).sum = 1 := by
  induction K with
  | nil => cases hk
  | cons a K ih =>
    rcases List.nodup_cons.mp hnd with ⟨ha, hndK⟩
    rcases List.mem_cons.mp hk with hka | hkK
    · subst hka
      simp only [List.map_cons, List.sum_cons, if_true]
      rw [sum_map_indicator_zero K k ha]
    · have hka : ¬ k = a := fun he => ha (he ▸ hkK)
      simp only [List.map_cons, List.sum_cons, hka, if_false]
      rw [ih hndK hkK]

/-- Grouping by a partial key partitions the keyed rows: the group sizes over
any duplicate-free covering key list sum to the number of keyed rows. -/
theorem sum_group_lengths {α κ : Type} [DecidableEq κ] (f : α → Option κ)
    (ps : List α) (Ks : List κ) (hnd : Ks.Nodup)
    (hcov : ∀ p ∈ ps, ∀ k, f p = some k → k ∈ Ks) :
    (Ks.map (fun k => (ps.filter (fun p => f p = some k)).length)).sum
      = (ps.filter (fun p => (f p).isSome)).length := by
  induction ps with
  | nil => simp
  | cons p ps ih =>
    have hcov' : ∀ q ∈ ps, ∀ k, f q = some k → k ∈ Ks := by
      intro q hq k hk
      exact hcov q (List.mem_cons_of_mem p hq) k hk
    cases hf : f p with
    | none =>
      have hmap : Ks.map
            (fun k => (List.filter (fun q => decide (f q = some k)) (p :: ps)).length)
          = Ks.map (fun k => (List.filter (fun q => decide (f q = some k)) ps).length) := by
        apply List.map_congr_left
        intro k _
        rw [List.filter_cons]
        simp [hf]
      rw [List.filter_cons]
      simp only [hf, Option.isSome_none, Bool.false_eq_true, if_false]
      rw [hmap]
      exact ih hcov'
    | some k0 =>
      have hk0 : k0 ∈ Ks := hcov p (List.mem_cons_self p ps) k0 hf
      have hmap : Ks.map
            (fun k => (List.filter (fun q => decide (f q = some k)) (p :: ps)).length)
          = Ks.map (fun k =>
              (if k0 = k then 1 else 0)
                + (List.filter (fun q => decide (f q = some k)) ps).length) := by
        apply List.map_congr_left
        intro k _
        rw [List.filter_cons]
        by_cases hkk : k0 = k
        · subst hkk
          simp [hf]
          omega
        · have : ¬ f p = some k := by
            rw [hf]
            intro hc
            exact hkk (Option.some.inj hc)
          simp [this, hkk]
      rw [hmap, List.sum_map_add, sum_map_indicator_one Ks k0 hnd hk0]
      rw [List.filter_cons]
      simp only [hf, Option.isSome_some, if_true, List.length_cons]
      rw [ih hcov']
      omega

/-- A post's grouping key exists exactly when its cluster id at the level is
non-null. -/
theorem clusterKey_isSome (db : Db) (level : Int) (p : Post) :
    (clusterKey db level p).isSome = (p.cluster level).isSome := by
  unfold clusterKey
  cases p.cluster level <;> rfl

/-- Every row of a level's cluster-summary block carries that level, and a
block is only nonempty when the level's cluster column exists. -/
theorem mem_clusterDetailsRows {sd : List Rat → Option Rat} {db : Db}
    {level : Int} {r : ClusterRow}
    (hr : r ∈ clusterDetailsRows sd db level) :
    r.level = level ∧ column_exists db level = true ∧
      ∃ k, r = mkClusterRow sd db level db.posts k := by
  unfold clusterDetailsRows at hr
  by_cases hc : column_exists db level
  · rw [if_pos hc] at hr
    have hr' := (List.perm_insertionSort clusterOrd _).mem_iff.mp hr
    rcases List.mem_map.mp hr' with ⟨k, _, hk⟩
    subst hk
    exact ⟨rfl, hc, k, rfl⟩
  · rw [if_neg hc] at hr
    cases hr

/-- Membership in the level-overview artifact, unfolded. -/
theorem mem_export_level_overview {sd : List Rat → Option Rat} {db : Db}
    {levels : List Int} {r : LevelRow} :
    r ∈ export_level_overview_csv sd db levels ↔
      ∃ level ∈ levels, column_exists db level = true ∧
        r = levelOverviewRow sd db level := by
  unfold export_level_overview_csv
  constructor
  · intro hr
    rcases List.mem_map.mp hr with ⟨level, hmem, hlr⟩
    rcases List.mem_filter.mp hmem with ⟨hlv, hcol⟩
    exact ⟨level, hlv, hcol, hlr.symm⟩
  · rintro ⟨level, hlv, hcol, hlr⟩
    exact List.mem_map.mpr ⟨level, List.mem_filter.mpr ⟨hlv, hcol⟩, hlr.symm⟩

/-- A `flatMap` is unchanged by removing an element whose image is empty. -/
theorem flatMap_filter_ne {α β : Type} [DecidableEq α] (l : List α)
    (g : α → List β) (a : α) (hga : g a = []) :
    l.flatMap g = (l.filter (fun x => x ≠ a)).flatMap g := by
  induction l with
  | nil => rfl
  | cons b l ih =>
    rw [List.flatMap_cons, List.filter_cons]
    by_cases hb : b = a
    · subst hb
      rw [if_neg (by simp), hga, List.nil_append]
      exact ih
    · rw [if_pos (by simp [hb]), List.flatMap_cons, ih]

/-- A `flatMap` whose every contributor but one is empty is that one
contributor. -/
theorem flatMap_eq_single {α β : Type} (l : List α) (g : α → List β) (a : α)
    (hnd : l.Nodup) (ha : a ∈ l) (hz : ∀ b ∈ l, b ≠ a → g b = []) :
    l.flatMap g = g a := by
  induction l with
  | nil => cases ha
  | cons b l ih =>
    rcases List.nodup_cons.mp hnd with ⟨hb, hndl⟩
    rw [List.flatMap_cons]
    rcases List.mem_cons.mp ha with hab | hal
    · subst hab
      have : l.flatMap g = [] := by
        apply List.flatMap_eq_nil_iff.mpr
        intro x hx
        exact hz x (List.mem_cons_of_mem a hx) (fun he => hb (he ▸ hx))
      rw [this, List.append_nil]
    · have hba : b ≠ a := fun he => hb (he ▸ hal)
      rw [hz b (List.mem_cons_self b l) hba, List.nil_append]
      exact ih hndl hal (fun x hx hxa => hz x (List.mem_cons_of_mem b hx) hxa)

/-- Claim C4: the cluster-summary rows emitted for a level by
`export_cluster_details_csv` (the block its loop iteration appends, of which
the artifact is the concatenation) are sorted primarily by `post_count`
descending, with rows of equal `post_count` ordered by `cluster_id`
ascending. -/
theorem cluster_details_sorted (sd : List Rat → Option Rat) (db : Db)
    (levels : List Int) (level : Int) :
    export_cluster_details_csv sd db levels
        = levels.flatMap (clusterDetailsRows sd db)
    ∧ (clusterDetailsRows sd db level).Pairwise (fun a b =>
        b.post_count ≤ a.post_count ∧
          (a.post_count = b.post_count → a.cluster_id ≤ b.cluster_id)) := by
  refine ⟨rfl, ?_⟩
  unfold clusterDetailsRows
  by_cases hc : column_exists db level
  · rw [if_pos hc]
    have hs := List.sorted_insertionSort clusterOrd
      ((clusterKeys db level db.posts).map (mkClusterRow sd db level db.posts))
    apply List.Pairwise.imp _ hs
    intro a b hab
    rcases hab with h | ⟨h1, h2⟩
    · exact ⟨Nat.le_of_lt h, fun he => absurd (he ▸ h) (Nat.lt_irrefl _)⟩
    · exact ⟨Nat.le_of_eq h1.symm, fun _ => h2⟩
  · rw [if_neg hc]
    exact List.Pairwise.nil

/-- Claim C5, counterexample: started with an existing but header-only
level-summary CSV (no data rows), the Viewer does not stop with the
missing-artifact error; it renders the page with the overview omitted. -/
theorem viewer_empty_level_csv_counterexample :
    viewer_main { levelCsv := some [], clusterCsv := some [] }
        = ViewerOutcome.rendered false []
    ∧ viewer_main { levelCsv := some [], clusterCsv := some [] }
        ≠ ViewerOutcome.errorStopped := by
  decide

/-- Claim C5, amended: with an existing level-summary CSV that has no data
rows (and an existing cluster CSV) the Viewer renders the page with the
overview block omitted; the `st.error`/`st.stop` blocking path is taken
exactly when one of the two CSV files is missing. -/
theorem viewer_empty_level_csv_renders (crows : List ClusterRow)
    (lc : Option (List LevelRow)) (cc : Option (List ClusterRow)) :
    viewer_main { levelCsv := some [], clusterCsv := some crows }
        = ViewerOutcome.rendered false (available_levels crows)
    ∧ viewer_main { levelCsv := none, clusterCsv := cc }
        = ViewerOutcome.errorStopped
    ∧ viewer_main { levelCsv := lc, clusterCsv := none }
        = ViewerOutcome.errorStopped := by
  refine ⟨rfl, ?_, ?_⟩
  · cases cc <;> rfl
  · cases lc <;> rfl

/-- Claim C6: when `connect_db()` raises, the Aggregator's `main` aborts
before either export function runs, so no CSV artifact is created or
modified — there is no partial output. -/
theorem connection_failure_no_artifacts (sd : List Rat → Option Rat)
    (levelsEnv classificationEnv : List Char) :
    aggregator_main sd ConnResult.failure levelsEnv classificationEnv
      = none := rfl

/-- Claim C9: two Aggregator runs over the same data source that differ only
in the `EA_CLASSIFICATION_FILTER` setting write identical CSV artifacts —
the filter reaches only the console-printing `summarize_level`, never the
export functions. -/
theorem classification_filter_noninterference (sd : List Rat → Option Rat)
    (conn : ConnResult) (levelsEnv ce1 ce2 : List Char) :
    (aggregator_main sd conn levelsEnv ce1).map AggOutput.level_csv
        = (aggregator_main sd conn levelsEnv ce2).map AggOutput.level_csv
    ∧ (aggregator_main sd conn levelsEnv ce1).map AggOutput.cluster_csv
        = (aggregator_main sd conn levelsEnv ce2).map AggOutput.cluster_csv := by
  cases conn <;> exact ⟨rfl, rfl⟩

/-- Claim C3: in every row of both artifacts, `meta_posts + proper_posts ≤
post_count` (a NULL count serializes as an empty cell and is read as 0):
the two label counts cover disjoint subpopulations, and posts with any other
or no classification are counted only in `post_count`. -/
theorem meta_proper_le_post_count (sd : List Rat → Option Rat) (db : Db)
    (levels : List Int) :
    (∀ r ∈ export_level_overview_csv sd db levels,
        r.meta_posts.getD 0 + r.proper_posts.getD 0 ≤ r.post_count)
    ∧ (∀ c ∈ export_cluster_details_csv sd db levels,
        c.meta_posts + c.proper_posts ≤ c.post_count) := by
  have hdisj : ∀ p : Post,
      classMatches "EA_META" p = true → classMatches "EA_PROPER" p = false := by
    intro p hp
    unfold classMatches at *
    have hm : p.ea_classification = some "EA_META" := of_decide_eq_true hp
    simp [hm]
  constructor
  · intro r hr
    rcases mem_export_level_overview.mp hr with ⟨L, _, _, hreq⟩
    subst hreq
    simp only [levelOverviewRow, sqlSumCase]
    by_cases he : (levelPosts db L).isEmpty
    · simp [he]
    · simp only [he, Bool.false_eq_true, if_false, Option.getD_some]
      exact countP_add_countP_le_length (levelPosts db L) _ _ hdisj
  · intro c hc
    rcases List.mem_flatMap.mp hc with ⟨L, _, hcL⟩
    rcases mem_clusterDetailsRows hcL with ⟨_, _, k, hck⟩
    subst hck
    simp only [mkClusterRow]
    exact countP_add_countP_le_length (clusterGroup db L db.posts k) _ _ hdisj

/-- Claim C3, witness instance: the inequality at a concrete level-summary
row of a concrete database. -/
theorem meta_proper_le_post_count_witness :
    (levelOverviewRow sdNone dbW 5).meta_posts.getD 0
        + (levelOverviewRow sdNone dbW 5).proper_posts.getD 0
      ≤ (levelOverviewRow sdNone dbW 5).post_count :=
  (meta_proper_le_post_count sdNone dbW [5, 12]).1
    (levelOverviewRow sdNone dbW 5) (by decide)

/-- Claim C2, counterexample: a database with a post clustered at level 5 but
not at level 12 yields level-summary rows whose totals differ (post_count 1
versus 0), so the first row is not representative of every level. -/
theorem level_totals_counterexample :
    ¬ (∀ r1 ∈ export_level_overview_csv sdNone dbC2 [5, 12],
        ∀ r2 ∈ export_level_overview_csv sdNone dbC2 [5, 12],
          r1.post_count = r2.post_count ∧ r1.meta_posts = r2.meta_posts
            ∧ r1.proper_posts = r2.proper_posts) := by
  decide

/-- Claim C2, amended: two level-summary rows have identical `post_count`,
`meta_posts` and `proper_posts` whenever every post is non-null at the one
row's level exactly when it is non-null at the other's — each level's row is
computed over only the posts whose cluster-id column for that level is
non-null, so without that uniformity the totals can differ (see the
counterexample). -/
theorem level_totals_equal_of_uniform (sd : List Rat → Option Rat) (db : Db)
    (levels : List Int) (r1 r2 : LevelRow)
    (h1 : r1 ∈ export_level_overview_csv sd db levels)
    (h2 : r2 ∈ export_level_overview_csv sd db levels)
    (huni : ∀ p ∈ db.posts,
      (p.cluster r1.level).isSome = (p.cluster r2.level).isSome) :
    r1.post_count = r2.post_count ∧ r1.meta_posts = r2.meta_posts
      ∧ r1.proper_posts = r2.proper_posts := by
  rcases mem_export_level_overview.mp h1 with ⟨L1, _, _, he1⟩
  rcases mem_export_level_overview.mp h2 with ⟨L2, _, _, he2⟩
  subst he1
  subst he2
  have hps : levelPosts db L1 = levelPosts db L2 := by
    unfold levelPosts
    apply List.filter_congr
    intro p hp
    exact huni p hp
  refine ⟨?_, ?_, ?_⟩ <;> simp only [levelOverviewRow] <;> rw [hps]

/-- Claim C2, witness instance for the amended statement: a database whose
posts are clustered at both levels has equal totals in its two rows. -/
theorem level_totals_equal_witness :
    (levelOverviewRow sdNone dbW 5).post_count
        = (levelOverviewRow sdNone dbW 12).post_count
    ∧ (levelOverviewRow sdNone dbW 5).meta_posts
        = (levelOverviewRow sdNone dbW 12).meta_posts
    ∧ (levelOverviewRow sdNone dbW 5).proper_posts
        = (levelOverviewRow sdNone dbW 12).proper_posts :=
  level_totals_equal_of_uniform sdNone dbW [5, 12]
    (levelOverviewRow sdNone dbW 5) (levelOverviewRow sdNone dbW 12)
    (by decide) (by decide) (by decide)

/-- Claim C1: for a level appearing in the level-summary artifact with
positive `post_count`, the cluster-summary rows for that level (which count
posts grouped by the non-null cluster id) have `post_count`s summing to the
level-summary row's `post_count` (which counts all posts with a non-null
cluster id at that level). -/
theorem sum_cluster_counts_eq_level_count (sd : List Rat → Option Rat)
    (db : Db) (levels : List Int) (L : Int) (r : LevelRow)
    (hnd : levels.Nodup)
    (hr : r ∈ export_level_overview_csv sd db levels)
    (hL : r.level = L)
    (hpos : 0 < r.post_count) :
    (((export_cluster_details_csv sd db levels).filter
        (fun c => c.level = L)).map ClusterRow.post_count).sum
      = r.post_count := by
  rcases mem_export_level_overview.mp hr with ⟨L', hmem, hcol, hreq⟩
  subst hreq
  have hLL : L' = L := hL
  subst hLL
  rw [export_cluster_details_csv, List.filter_flatMap]
  have hsingle : levels.flatMap (fun a =>
        (clusterDetailsRows sd db a).filter (fun c => decide (c.level = L')))
      = (clusterDetailsRows sd db L').filter (fun c => decide (c.level = L')) := by
    apply flatMap_eq_single levels _ L' hnd hmem
    intro b hb hbne
    apply List.filter_eq_nil_iff.mpr
    intro c hcmem
    have hcl := (mem_clusterDetailsRows hcmem).1
    simp [hcl, hbne]
  rw [hsingle]
  have hself : (clusterDetailsRows sd db L').filter
        (fun c => decide (c.level = L'))
      = clusterDetailsRows sd db L' := by
    apply List.filter_eq_self.mpr
    intro c hcmem
    have hcl := (mem_clusterDetailsRows hcmem).1
    simp [hcl]
  rw [hself]
  unfold clusterDetailsRows
  rw [if_pos hcol]
  have hperm := List.perm_insertionSort clusterOrd
    ((clusterKeys db L' db.posts).map (mkClusterRow sd db L' db.posts))
  rw [(hperm.map ClusterRow.post_count).sum_eq, List.map_map]
  have hcomp : (ClusterRow.post_count ∘ mkClusterRow sd db L' db.posts)
      = fun k =>
          (db.posts.filter (fun p => decide (clusterKey db L' p = some k))).length :=
    rfl
  rw [hcomp]
  have hpart := sum_group_lengths (clusterKey db L') db.posts
    (clusterKeys db L' db.posts) (List.nodup_dedup _) (by
      intro p hp k hk
      exact List.mem_dedup.mpr (List.mem_filterMap.mpr ⟨p, hp, hk⟩))
  rw [hpart]
  have hfc : db.posts.filter (fun p => (clusterKey db L' p).isSome)
      = levelPosts db L' := by
    unfold levelPosts
    apply List.filter_congr
    intro p hp
    exact clusterKey_isSome db L' p
  rw [hfc]
  rfl

/-- Claim C1, witness instance: the sum of per-cluster post counts at level 5
of a concrete database equals its level-5 summary count. -/
theorem sum_cluster_counts_witness :
    (((export_cluster_details_csv sdNone dbW [5, 12]).filter
        (fun c => c.level = 5)).map ClusterRow.post_count).sum
      = (levelOverviewRow sdNone dbW 5).post_count :=
  sum_cluster_counts_eq_level_count sdNone dbW [5, 12] 5
    (levelOverviewRow sdNone dbW 5) (by decide) (by decide) (by decide)
    (by decide)

/-- Claim C7: `fetch_cluster_posts(level, cluster_id, sort_by)` returns at
most 500 posts, all and (when at most 500 match) exactly those whose
cluster-id column at the level equals `cluster_id`, ordered by score
descending with NULLs last when sorting by score and by `posted_at`
descending with NULLs last otherwise; an unreachable data source — no
connection, or a query that raises — yields an empty result, not an
error. -/
theorem fetch_cluster_posts_spec (db : Db) (level cluster_id : Int)
    (sort_by : String) :
    fetch_cluster_posts DbConn.unreachable level cluster_id sort_by = []
    ∧ fetch_cluster_posts (DbConn.queryFails db) level cluster_id sort_by = []
    ∧ (fetch_cluster_posts (DbConn.ok db) level cluster_id sort_by).length ≤ 500
    ∧ (∀ r ∈ fetch_cluster_posts (DbConn.ok db) level cluster_id sort_by,
        ∃ p ∈ db.posts, p.cluster level = some cluster_id
          ∧ r = formatFetchRow (toFetchRow p))
    ∧ ((fetchMatching db level cluster_id).length ≤ 500 →
        (fetch_cluster_posts (DbConn.ok db) level cluster_id sort_by).Perm
          ((fetchMatching db level cluster_id).map
            (fun p => formatFetchRow (toFetchRow p))))
    ∧ fetch_cluster_posts (DbConn.ok db) level cluster_id sort_by
        = ((fetchSorted db level cluster_id sort_by).take 500).map formatFetchRow
    ∧ (sort_by = "score" →
        ((fetchSorted db level cluster_id sort_by).take 500).Pairwise scoreOrd)
    ∧ (sort_by ≠ "score" →
        ((fetchSorted db level cluster_id sort_by).take 500).Pairwise dateOrd) := by
  have hperm : (fetchSorted db level cluster_id sort_by).Perm
      ((fetchMatching db level cluster_id).map toFetchRow) := by
    unfold fetchSorted
    by_cases hs : sort_by = "score"
    · rw [if_pos hs]
      exact List.perm_insertionSort scoreOrd _
    · rw [if_neg hs]
      exact List.perm_insertionSort dateOrd _
  have hlen : (fetchSorted db level cluster_id sort_by).length
      = (fetchMatching db level cluster_id).length := by
    rw [hperm.length_eq, List.length_map]
  refine ⟨rfl, rfl, ?_, ?_, ?_, rfl, ?_, ?_⟩
  · show (((fetchSorted db level cluster_id sort_by).take 500).map
        formatFetchRow).length ≤ 500
    rw [List.length_map, List.length_take]
    exact inf_le_left
  · intro r hr
    rcases List.mem_map.mp hr with ⟨r', hr', hrr⟩
    have hr'' : r' ∈ fetchSorted db level cluster_id sort_by :=
      List.mem_of_mem_take hr'
    have hr3 : r' ∈ (fetchMatching db level cluster_id).map toFetchRow :=
      hperm.mem_iff.mp hr''
    rcases List.mem_map.mp hr3 with ⟨p, hp, hpr⟩
    rcases List.mem_filter.mp hp with ⟨hpdb, hpc⟩
    exact ⟨p, hpdb, of_decide_eq_true hpc, by rw [← hrr, ← hpr]⟩
  · intro hle
    show (((fetchSorted db level cluster_id sort_by).take 500).map
        formatFetchRow).Perm _
    rw [List.take_of_length_le (by rw [hlen]; exact hle)]
    have := hperm.map formatFetchRow
    rw [List.map_map] at this
    exact this
  · intro hs
    unfold fetchSorted
    rw [if_pos hs]
    exact List.Pairwise.sublist (List.take_sublist _ _)
      (List.sorted_insertionSort scoreOrd _)
  · intro hs
    unfold fetchSorted
    rw [if_neg hs]
    exact List.Pairwise.sublist (List.take_sublist _ _)
      (List.sorted_insertionSort dateOrd _)

/-- Claim C7, witness instance: on a concrete reachable database with two
posts in the queried cluster, the fetched rows are a permutation of exactly
the matching posts. -/
theorem fetch_cluster_posts_witness :
    (fetchMatching dbF 5 1).length ≤ 500
    ∧ (fetch_cluster_posts (DbConn.ok dbF) 5 1 "date").Perm
        ((fetchMatching dbF 5 1).map (fun p => formatFetchRow (toFetchRow p))) :=
  ⟨by decide, (fetch_cluster_posts_spec dbF 5 1 "date").2.2.2.2.1 (by decide)⟩

/-- What `summarize_level` can print: one summary section for its level when
the cluster column exists, else one skip line. -/
theorem mem_summarize_level {sd : List Rat → Option Rat} {db : Db}
    {lvl : Int} {f : Option String} {item : ConsoleItem}
    (h : item ∈ summarize_level sd db lvl f) :
    (column_exists db lvl = true
      ∧ ∃ es, item = ConsoleItem.levelSection lvl f es)
    ∨ (column_exists db lvl = false ∧ item = ConsoleItem.skipMsg lvl) := by
  unfold summarize_level at h
  by_cases hc : column_exists db lvl
  · rw [if_pos hc] at h
    rcases List.mem_singleton.mp h with rfl
    exact Or.inl ⟨hc, _, rfl⟩
  · rw [if_neg hc] at h
    rcases List.mem_singleton.mp h with rfl
    exact Or.inr ⟨by simpa using hc, rfl⟩

/-- Claim C8: a configured level whose `ea_cluster_{L}` column is absent is
non-fatal and is simply omitted: no row with that level appears in either
artifact, the console shows no summary section for it (only the skip line),
and removing it from the configured levels leaves both artifacts
unchanged — all other levels are processed normally. -/
theorem missing_level_column_omitted (sd : List Rat → Option Rat) (db : Db)
    (levels : List Int) (L : Int) (filter : Option String)
    (hmem : L ∈ levels) (hmiss : column_exists db L = false) :
    (∀ r ∈ export_level_overview_csv sd db levels, r.level ≠ L)
    ∧ (∀ c ∈ export_cluster_details_csv sd db levels, c.level ≠ L)
    ∧ summarize_level sd db L filter = [ConsoleItem.skipMsg L]
    ∧ (∀ item ∈ mainConsole sd db levels filter, ∀ f es,
        item ≠ ConsoleItem.levelSection L f es)
    ∧ export_level_overview_csv sd db levels
        = export_level_overview_csv sd db (levels.filter (fun x => x ≠ L))
    ∧ export_cluster_details_csv sd db levels
        = export_cluster_details_csv sd db (levels.filter (fun x => x ≠ L)) := by
  have hnotrue : ¬ column_exists db L = true := by simp [hmiss]
  have hsec : ∀ lvl f0 f es, ConsoleItem.levelSection L f es ∈
      summarize_level sd db lvl f0 → False := by
    intro lvl f0 f es hin
    rcases mem_summarize_level hin with ⟨hcol, es', hes⟩ | ⟨_, hes⟩
    · rw [ConsoleItem.levelSection.injEq] at hes
      rw [hes.1] at hmiss
      rw [hmiss] at hcol
      cases hcol
    · cases hes
  refine ⟨?_, ?_, ?_, ?_, ?_, ?_⟩
  · intro r hr
    rcases mem_export_level_overview.mp hr with ⟨L'', _, hcol, he⟩
    subst he
    intro he2
    have hL'' : L'' = L := he2
    rw [hL''] at hcol
    exact hnotrue hcol
  · intro c hc
    rcases List.mem_flatMap.mp hc with ⟨L'', _, hcL⟩
    rcases mem_clusterDetailsRows hcL with ⟨hlev, hcol, _⟩
    intro he2
    rw [hlev] at he2
    rw [he2] at hcol
    exact hnotrue hcol
  · unfold summarize_level
    rw [if_neg hnotrue]
  · intro item hit f' es heq
    subst heq
    unfold mainConsole at hit
    rcases List.mem_append.mp hit with h1 | h2
    · rcases List.mem_append.mp h1 with h3 | h4
      · rcases List.mem_append.mp h3 with h5 | h6
        · simp at h5
        · rcases List.mem_flatMap.mp h6 with ⟨lvl, _, hin⟩
          exact hsec lvl filter f' es hin
      · simp at h4
    · cases filter with
      | some c => cases h2
      | none =>
        rcases List.mem_cons.mp h2 with h7 | h8
        · cases h7
        · rcases List.mem_flatMap.mp h8 with ⟨c, _, h9⟩
          rcases List.mem_flatMap.mp h9 with ⟨lvl, _, hin⟩
          exact hsec lvl (some c) f' es hin
  · unfold export_level_overview_csv
    have hfe : levels.filter (fun level => column_exists db level)
        = (levels.filter (fun x => x ≠ L)).filter
            (fun level => column_exists db level) := by
      rw [List.filter_filter]
      apply List.filter_congr
      intro x hx
      by_cases hcx : column_exists db x = true
      · have hxL : x ≠ L := by
          intro he
          rw [he] at hcx
          exact hnotrue hcx
        simp [hcx, hxL]
      · have hb : column_exists db x = false := by simpa using hcx
        simp [hb]
    rw [hfe]
  · have hga : clusterDetailsRows sd db L = [] := by
      unfold clusterDetailsRows
      rw [if_neg hnotrue]
    exact flatMap_filter_ne levels (clusterDetailsRows sd db) L hga

/-- Claim C8, witness instance: a database lacking the level-12 column makes
`summarize_level` print only the skip line for level 12. -/
theorem missing_level_column_witness :
    summarize_level sdNone dbC8 12 none = [ConsoleItem.skipMsg 12] :=
  (missing_level_column_omitted sdNone dbC8 [5, 12] 12 none (by decide)
    (by decide)).2.2.1

/-- Conversion of the kept entries aborts when any entry is rejected by
`int`. -/
theorem traverseInts_eq_none {l : List (List Char)}
    (h : ∃ e ∈ l, pyInt e = none) : traverseInts l = none := by
  induction l with
  | nil =>
    rcases h with ⟨e, he, _⟩
    cases he
  | cons a l ih =>
    rcases h with ⟨e, he, hnone⟩
    rcases List.mem_cons.mp he with hea | hel
    · subst hea
      cases htr : traverseInts l <;> simp [traverseInts, hnone, htr]
    · have hl := ih ⟨e, hel, hnone⟩
      cases hpa : pyInt a <;> simp [traverseInts, hpa, hl]

/-- When every kept entry converts, the conversion yields exactly their
values in order. -/
theorem traverseInts_eq_filterMap {l : List (List Char)}
    (h : ∀ e ∈ l, (pyInt e).isSome) :
    traverseInts l = some (l.filterMap pyInt) := by
  induction l with
  | nil => rfl
  | cons a l ih =>
    have ha := h a (List.mem_cons_self a l)
    rcases Option.isSome_iff_exists.mp ha with ⟨v, hv⟩
    have hrest := ih (fun e he => h e (List.mem_cons_of_mem a he))
    simp [traverseInts, hv, hrest, List.filterMap_cons]

/-- Claim C10: with a non-empty `CLUSTER_LEVELS` value, any kept
comma-separated entry that `int` rejects makes the Aggregator silently fall
back to `DEFAULT_LEVELS` (5, 12, 30, 60), while empty or whitespace-only
entries are merely skipped — only the kept entries decide between the
fallback and their parsed values. -/
theorem parse_levels_spec (env : List Char)
    (hne : (pyStrip env).isEmpty = false) :
    ((∃ e ∈ keptEntries env, pyInt e = none) →
        parse_levels env = DEFAULT_LEVELS)
    ∧ ((∀ e ∈ keptEntries env, (pyInt e).isSome) →
        parse_levels env = (keptEntries env).filterMap pyInt) := by
  constructor
  · intro h
    unfold parse_levels
    rw [if_neg (by simp [hne]), traverseInts_eq_none h]
  · intro h
    unfold parse_levels
    rw [if_neg (by simp [hne]), traverseInts_eq_filterMap h]

/-- Claim C10, witness instances: `5,abc` falls back to the defaults, while
`5, ,7` (with a whitespace-only entry) parses to exactly 5 and 7. -/
theorem parse_levels_witness :
    parse_levels ("5,abc".toList) = DEFAULT_LEVELS
    ∧ parse_levels (" 5, ,7 ".toList) = [5, 7] := by
  constructor
  · exact (parse_levels_spec ("5,abc".toList) (by decide)).1 (by decide)
  · exact ((parse_levels_spec (" 5, ,7 ".toList) (by decide)).2
      (by decide)).trans (by decide)

end EAFC

